import Mathlib

/-!
Verification development for the MIR unsafety-checking pass
(`compiler/rustc_mir_transform/src/check_unsafety.rs`).

The pass has two components: a Violation Collector that walks the MIR body
and classifies each place use / statement / terminator, registering
violations against the lexically enclosing source scope's safety mode, and
an Unused-Unsafe Auditor that walks the lexical (HIR) tree and classifies
every explicitly-written unsafe block as unused / redundant / genuinely
needed.  The definitions below are a shallow embedding of that code;
type-level and lint-level queries, which the pass only consumes as
boolean/enum answers, are supplied by oracle structures.
-/

set_option autoImplicit false

namespace CheckUnsafety

/-- Lint levels (`rustc_session::lint::Level`).  The pass only distinguishes
`Allow` from everything else. -/
inductive Level where
  | Allow
  | Warn
  | Deny
  | Forbid
deriving DecidableEq

/-- `Safety` of a source scope (`rustc_middle::mir::Safety`): the safety mode
of the lexical scope a statement or terminator lives in. -/
inductive Safety where
  | Safe
  | BuiltinUnsafe
  | FnUnsafe
  | ExplicitUnsafe (hirId : Nat)
deriving DecidableEq

/-- `UnsafetyViolationKind`: `General` violations are hard errors, `UnsafeFn`
violations are downgraded to the `unsafe_op_in_unsafe_fn` lint. -/
inductive UnsafetyViolationKind where
  | General
  | UnsafeFn
deriving DecidableEq

/-- `UnsafetyViolationDetails`: one variant per unsafe-operation category. -/
inductive UnsafetyViolationDetails where
  | CallToUnsafeFunction
  | UseOfInlineAssembly
  | InitializingTypeWith
  | UseOfMutableStatic
  | UseOfExternStatic
  | DerefOfRawPointer
  | AccessToUnionField
  | AssignToDroppingUnionField
  | MutationOfLayoutConstrainedField
  | BorrowOfLayoutConstrainedField
  | CallToFunctionWith
deriving DecidableEq

/-- `UnsafetyViolation`.  `source_info` abstracts the source position and
`lint_root` is the lint anchor (a HIR id); both are modelled as naturals. -/
structure UnsafetyViolation where
  source_info : Nat
  lint_root : Nat
  kind : UnsafetyViolationKind
  details : UnsafetyViolationDetails
deriving DecidableEq

/-- `UsedUnsafeBlockData`: per used explicit unsafe block, whether every
absorbed violation happened where `unsafe_op_in_unsafe_fn` is allowed. -/
inductive UsedUnsafeBlockData where
  | AllAllowedInUnsafeFn (lintRoot : Nat)
  | SomeDisallowedInUnsafeFn
deriving DecidableEq

/-- The `used_unsafe_blocks : FxHashMap<HirId, UsedUnsafeBlockData>` map,
modelled as an association list with unique keys (only the lookup/insert
behaviour of the hash map is observable to the pass). -/
abbrev UsedMap := List (Nat × UsedUnsafeBlockData)

/-- Hash-map lookup (`FxHashMap::get`). -/
def lookupEntry : UsedMap → Nat → Option UsedUnsafeBlockData
  | [], _ => none
  | (k, v) :: rest, h => if k = h then some v else lookupEntry rest h

/-- In-place overwrite of the value stored at an occupied key
(`Entry::Occupied(entry)` followed by `*entry.get_mut() = ...`). -/
def setEntry : UsedMap → Nat → UsedUnsafeBlockData → UsedMap
  | [], _, _ => []
  | (k, v) :: rest, h, nv => (k, if k = h then nv else v) :: setEntry rest h nv

/-- The `update_entry` closure of `UnsafetyChecker::register_violations`:
on an occupied entry, overwrite only when the new usage is
`SomeDisallowedInUnsafeFn`; on a vacant entry, insert the new usage. -/
def update_entry (m : UsedMap) (h : Nat) (new_usage : UsedUnsafeBlockData) : UsedMap :=
  match lookupEntry m h with
  | some _ =>
      if new_usage = UsedUnsafeBlockData.SomeDisallowedInUnsafeFn then
        setEntry m h UsedUnsafeBlockData.SomeDisallowedInUnsafeFn
      else m
  | none => m ++ [(h, new_usage)]

/-- The accumulators of `UnsafetyChecker` that violation registration
touches: the violation list and the used-unsafe-blocks map. -/
structure CheckerState where
  violations : List UnsafetyViolation
  used_unsafe_blocks : UsedMap
deriving DecidableEq

/-- Replace the `kind` field of a violation (`violation.kind = ...`). -/
def setKind (v : UnsafetyViolation) (k : UnsafetyViolationKind) : UnsafetyViolation :=
  ⟨v.source_info, v.lint_root, k, v.details⟩

/-- The dedup-and-push step
(`if !self.violations.contains(&violation) { self.violations.push(violation) }`). -/
def pushDedup (l : List UnsafetyViolation) (v : UnsafetyViolation) : List UnsafetyViolation :=
  if v ∈ l then l else l ++ [v]

/-- `UnsafetyChecker::register_violations`.  `lintAt` is the
`lint_level_at_node(UNSAFE_OP_IN_UNSAFE_FN, ·)` query.  The `bug!` reached
by an `UnsafeFn`-kind violation in a `Safe` scope is modelled as `none`
(analysis aborts); in that case the trailing merge of
`new_used_unsafe_blocks` never runs, exactly as in the source. -/
def register_violations (lintAt : Nat → Level) (safety : Safety)
    (violations : List UnsafetyViolation)
    (new_used_unsafe_blocks : List (Nat × UsedUnsafeBlockData))
    (s : CheckerState) : Option CheckerState :=
  let after : Option CheckerState :=
    match safety with
    | Safety.Safe =>
        violations.foldlM
          (fun st v =>
            match v.kind with
            | UnsafetyViolationKind.UnsafeFn => none
            | UnsafetyViolationKind.General =>
                some ⟨pushDedup st.violations v, st.used_unsafe_blocks⟩) s
    | Safety.FnUnsafe =>
        some (violations.foldl
          (fun st v =>
            ⟨pushDedup st.violations (setKind v UnsafetyViolationKind.UnsafeFn),
             st.used_unsafe_blocks⟩) s)
    | Safety.BuiltinUnsafe => some s
    | Safety.ExplicitUnsafe hirId =>
        some (violations.foldl
          (fun st v =>
            ⟨st.violations,
             update_entry st.used_unsafe_blocks hirId
               (match lintAt v.lint_root with
                | Level.Allow => UsedUnsafeBlockData.AllAllowedInUnsafeFn v.lint_root
                | _ => UsedUnsafeBlockData.SomeDisallowedInUnsafeFn)⟩) s)
  after.map (fun st =>
    new_used_unsafe_blocks.foldl
      (fun st2 p => ⟨st2.violations, update_entry st2.used_unsafe_blocks p.1 p.2⟩) st)

/-- `UnsafetyChecker::require_unsafe`: asserts the kind is not `UnsafeFn`
(modelled as `none`), then registers a single freshly built violation with
no new used blocks, under the currently active scope's safety mode. -/
def requireUnsafe (lintAt : Nat → Level) (safety : Safety) (source_info lint_root : Nat)
    (kind : UnsafetyViolationKind) (details : UnsafetyViolationDetails)
    (s : CheckerState) : Option CheckerState :=
  if kind = UnsafetyViolationKind.UnsafeFn then none
  else register_violations lintAt safety [⟨source_info, lint_root, kind, details⟩] [] s

/-! ## Places, types, and the place-use classifier (`visit_place`) -/

/-- Types, as far as the pass inspects them structurally: scalars, ADTs
(identified by their `DefId`, with a union flag), raw pointers and
references.  Everything else the pass asks about a type goes through the
`Oracle` of type-level queries below. -/
inductive Ty where
  | scalar : Ty
  | adt (adtId : Nat) (isUnionAdt : Bool) : Ty
  | rawPtr (pointee : Ty) : Ty
  | ref (pointee : Ty) : Ty
deriving DecidableEq

/-- `Ty::is_unsafe_ptr`: raw pointers. -/
def Ty.is_unsafe_ptr : Ty → Bool
  | Ty.rawPtr _ => true
  | _ => false

/-- `Ty::is_union`. -/
def Ty.is_union : Ty → Bool
  | Ty.adt _ u => u
  | _ => false

/-- `Ty::ty_adt_def`, reduced to the `DefId` that the type-level queries key
on (`none` for non-ADT types). -/
def Ty.adtId? : Ty → Option Nat
  | Ty.adt did _ => some did
  | _ => none

/-- The external type-, item- and layout-level queries the pass consumes
(spec sec. 6: answers are assumed correct and not re-validated).
`layout_scalar_valid_range_restricted did` stands for
`layout_scalar_valid_range(did) != (Unbounded, Unbounded)`. -/
structure Oracle where
  layout_scalar_valid_range_restricted : Nat → Bool
  fieldTy : Nat → Nat → Ty
  is_freeze : Ty → Bool
  is_copy_modulo_regions : Ty → Bool
  is_manually_drop : Nat → Bool
  is_mutable_static : Nat → Bool
  is_foreign_item : Nat → Bool

/-- Place projection elements.  The pass distinguishes only `Deref` and
`Field`; `Other` collapses `Index`, `ConstantIndex`, `Subslice` and
`Downcast`, which every check treats alike (skip and continue). -/
inductive ProjElem where
  | Deref
  | Field (idx : Nat)
  | Other
deriving DecidableEq

/-- A MIR place: a root local plus a projection chain (root-to-tip).
The source field `local` is a Lean keyword, hence `localVar`. -/
structure Place where
  localVar : Nat
  projection : List ProjElem
deriving DecidableEq

/-- The slice of `LocalDecl` the pass reads: the `internal` flag and, for
locals introduced when desugaring statics, `LocalInfo::StaticRef`'s
`def_id` (as `static_ref`), plus the local's type. -/
structure LocalDecl where
  internal : Bool
  static_ref : Option Nat
  ty : Ty

/-- Modelled from the spec: the `PlaceContext` of the MIR visitor interface
(defined in `rustc_middle`, outside `src/`): how a place is being used.
Mutating-use sub-contexts other than `Store`/`Drop`/`AsmOutput`/`Borrow`
and non-mutating sub-contexts other than the three borrow forms are
collapsed into `OtherUse`, since the pass never distinguishes them. -/
inductive MutatingUseContext where
  | Store
  | Drop
  | AsmOutput
  | Borrow
  | OtherUse
deriving DecidableEq

/-- Modelled from the spec: non-mutating use sub-contexts (see
`MutatingUseContext`). -/
inductive NonMutatingUseContext where
  | SharedBorrow
  | ShallowBorrow
  | UniqueBorrow
  | OtherUse
deriving DecidableEq

/-- Modelled from the spec: `PlaceContext` proper. -/
inductive PlaceContext where
  | MutatingUse (c : MutatingUseContext)
  | NonMutatingUse (c : NonMutatingUseContext)
  | NonUse
deriving DecidableEq

/-- Modelled from the spec: `PlaceContext::is_mutating_use`. -/
def PlaceContext.is_mutating_use : PlaceContext → Bool
  | PlaceContext.MutatingUse _ => true
  | _ => false

/-- Modelled from the spec: `PlaceContext::is_borrow` (the three
non-mutating borrow forms and the mutating borrow). -/
def PlaceContext.is_borrow : PlaceContext → Bool
  | PlaceContext.NonMutatingUse NonMutatingUseContext.SharedBorrow => true
  | PlaceContext.NonMutatingUse NonMutatingUseContext.ShallowBorrow => true
  | PlaceContext.NonMutatingUse NonMutatingUseContext.UniqueBorrow => true
  | PlaceContext.MutatingUse MutatingUseContext.Borrow => true
  | _ => false

/-- The `matches!(context, MutatingUse(Store | Drop | AsmOutput))` test of
the union-field check. -/
def assignContext : PlaceContext → Bool
  | PlaceContext.MutatingUse MutatingUseContext.Store => true
  | PlaceContext.MutatingUse MutatingUseContext.Drop => true
  | PlaceContext.MutatingUse MutatingUseContext.AsmOutput => true
  | _ => false

/-- Type of a place after one more projection element
(`PlaceTy::projection_ty`, restricted to what the pass looks at). -/
def projTy (O : Oracle) (t : Ty) (e : ProjElem) : Ty :=
  match e, t with
  | ProjElem.Deref, Ty.rawPtr u => u
  | ProjElem.Deref, Ty.ref u => u
  | ProjElem.Field i, Ty.adt did _ => O.fieldTy did i
  | _, _ => t

/-- `Place::iter_projections`: the root-to-tip list of pairs of (type of
the base place before the element, element). -/
def iterProjections (O : Oracle) : Ty → List ProjElem → List (Ty × ProjElem)
  | _, [] => []
  | t, e :: rest => (t, e) :: iterProjections O (projTy O t e) rest

/-- The projection pairs of a place, starting from its root local's type. -/
def placePairs (O : Oracle) (decls : Nat → LocalDecl) (p : Place) : List (Ty × ProjElem) :=
  iterProjections O (decls p.localVar).ty p.projection

/-- `Place::ty`: the type of the whole place. -/
def placeFullTy (O : Oracle) (decls : Nat → LocalDecl) (p : Place) : Ty :=
  p.projection.foldl (projTy O) (decls p.localVar).ty

/-- The loop body of `check_mut_borrowing_layout_constrained_field`,
consuming the projection pairs tip-to-root (`iter_projections().rev()`):
a `Deref` returns (stop), a `Field` whose base is an ADT with a restricted
scalar valid range classifies (mutating use, else non-freeze borrow, else
continue), anything else continues. -/
def layoutScan (O : Oracle) (fullTy : Ty) (is_mut_use : Bool) :
    List (Ty × ProjElem) → List UnsafetyViolationDetails
  | [] => []
  | (baseTy, e) :: rest =>
    match e with
    | ProjElem.Deref => []
    | ProjElem.Field _ =>
      (match Ty.adtId? baseTy with
       | some did =>
         if O.layout_scalar_valid_range_restricted did then
           if is_mut_use then
             UnsafetyViolationDetails.MutationOfLayoutConstrainedField ::
               layoutScan O fullTy is_mut_use rest
           else if !(O.is_freeze fullTy) then
             UnsafetyViolationDetails.BorrowOfLayoutConstrainedField ::
               layoutScan O fullTy is_mut_use rest
           else layoutScan O fullTy is_mut_use rest
         else layoutScan O fullTy is_mut_use rest
       | none => layoutScan O fullTy is_mut_use rest)
    | ProjElem.Other => layoutScan O fullTy is_mut_use rest

/-- `UnsafetyChecker::check_mut_borrowing_layout_constrained_field`,
as a function from the place to the emitted violation details. -/
def check_mut_borrowing_layout_constrained_field (O : Oracle) (decls : Nat → LocalDecl)
    (p : Place) (is_mut_use : Bool) : List UnsafetyViolationDetails :=
  layoutScan O (placeFullTy O decls p) is_mut_use (placePairs O decls p).reverse

/-- The raw-pointer check of `visit_place`: one `DerefOfRawPointer` per
`Deref` projection whose base type is a raw pointer, root-to-tip. -/
def rawPtrDerefCheck : List (Ty × ProjElem) → List UnsafetyViolationDetails
  | [] => []
  | (baseTy, e) :: rest =>
    if e = ProjElem.Deref ∧ Ty.is_unsafe_ptr baseTy then
      UnsafetyViolationDetails.DerefOfRawPointer :: rawPtrDerefCheck rest
    else rawPtrDerefCheck rest

/-- The union-field loop of `visit_place`, consuming projection pairs
tip-to-root (`iter_projections().rev()`) while tracking `saw_deref`. -/
def unionScan (O : Oracle) (ctx : PlaceContext) (fullTy : Ty) :
    Bool → List (Ty × ProjElem) → List UnsafetyViolationDetails
  | _, [] => []
  | saw_deref, (baseTy, e) :: rest =>
    if e = ProjElem.Deref then unionScan O ctx fullTy true rest
    else if Ty.is_union baseTy then
      (if !saw_deref && assignContext ctx then
        (let manually_drop := match Ty.adtId? fullTy with
           | some did => O.is_manually_drop did
           | none => false
         let nodrop := manually_drop || O.is_copy_modulo_regions fullTy
         if !nodrop then
           UnsafetyViolationDetails.AssignToDroppingUnionField ::
             unionScan O ctx fullTy saw_deref rest
         else unionScan O ctx fullTy saw_deref rest)
      else
        UnsafetyViolationDetails.AccessToUnionField ::
          unionScan O ctx fullTy saw_deref rest)
    else unionScan O ctx fullTy saw_deref rest

/-- The union-field check of `visit_place` for a whole place. -/
def unionCheck (O : Oracle) (decls : Nat → LocalDecl) (p : Place)
    (ctx : PlaceContext) : List UnsafetyViolationDetails :=
  unionScan O ctx (placeFullTy O decls p) false (placePairs O decls p).reverse

/-- The generic checks of `visit_place` (raw-pointer derefs, then union
fields), run when the static-ref special case does not fire. -/
def genericChecks (O : Oracle) (decls : Nat → LocalDecl) (p : Place)
    (ctx : PlaceContext) : List UnsafetyViolationDetails :=
  rawPtrDerefCheck (placePairs O decls p) ++ unionCheck O decls p ctx

/-- The part of `visit_place` after the layout-constrained-field gate: the
static-ref special case (internal root local whose first projection is a
`Deref` and whose declaration records a `StaticRef`), which classifies
mutable statics and foreign statics directly and then returns, skipping
the generic checks; in every other situation the generic checks run. -/
def staticOrGeneric (O : Oracle) (decls : Nat → LocalDecl) (p : Place)
    (ctx : PlaceContext) : List UnsafetyViolationDetails :=
  let decl := decls p.localVar
  if decl.internal ∧ p.projection.head? = some ProjElem.Deref then
    match decl.static_ref with
    | some did =>
      if O.is_mutable_static did then [UnsafetyViolationDetails.UseOfMutableStatic]
      else if O.is_foreign_item did then [UnsafetyViolationDetails.UseOfExternStatic]
      else genericChecks O decls p ctx
    | none => genericChecks O decls p ctx
  else genericChecks O decls p ctx

/-- The layout-constrained-field gate of `visit_place`: the scan runs only
for mutating uses and borrows. -/
def layoutGate (O : Oracle) (decls : Nat → LocalDecl) (p : Place)
    (ctx : PlaceContext) : List UnsafetyViolationDetails :=
  if PlaceContext.is_mutating_use ctx || PlaceContext.is_borrow ctx then
    check_mut_borrowing_layout_constrained_field O decls p (PlaceContext.is_mutating_use ctx)
  else []

/-- `UnsafetyChecker::visit_place`, as the ordered list of
`UnsafetyViolationDetails` it passes to `require_unsafe` (the source calls
`require_unsafe(UnsafetyViolationKind::General, details)` once per entry,
in this order). -/
def visit_place (O : Oracle) (decls : Nat → LocalDecl) (p : Place)
    (ctx : PlaceContext) : List UnsafetyViolationDetails :=
  layoutGate O decls p ctx ++ staticOrGeneric O decls p ctx

/-- Processing of one place use end to end: every detail classified by
`visit_place` is fed through `require_unsafe` with kind `General` under
the currently active scope's safety mode, source position and lint root. -/
def processPlaceUse (O : Oracle) (decls : Nat → LocalDecl) (lintAt : Nat → Level)
    (safety : Safety) (source_info lint_root : Nat) (p : Place) (ctx : PlaceContext)
    (s : CheckerState) : Option CheckerState :=
  (visit_place O decls p ctx).foldlM
    (fun st d =>
      requireUnsafe lintAt safety source_info lint_root UnsafetyViolationKind.General d st) s

/-! ## The Unused-Unsafe Auditor -/

/-- `Context`: the innermost relevant context of the auditor's lexical
walk. -/
inductive Context where
  | Safe
  | UnsafeFn (hirId : Nat)
  | UnsafeBlock (hirId : Nat)
deriving DecidableEq

/-- `UnusedUnsafe`: the finding attached to a redundant unsafe block. -/
inductive UnusedUnsafe where
  | Unused
  | InUnsafeBlock (hirId : Nat)
  | InUnsafeFn (hirId : Nat) (usageLintRoot : Nat)
deriving DecidableEq

/-- The environment of the auditor: the `lint_level_at_node(UNUSED_UNSAFE, ·)`
query and the used-unsafe-blocks map produced by the collector. -/
structure AuditEnv where
  unusedLintAt : Nat → Level
  blocks : UsedMap

/-- The lexical (HIR) tree as the auditor sees it.  A block's contents are
modelled as a single child tree, with `seq` for sequencing of sibling
nodes and `leaf` for everything the walk passes through without effect;
`block` carries the flag "explicitly written unsafe block"
(`BlockCheckMode::UnsafeBlock(UnsafeSource::UserProvided)`), and
`closureNode` is a closure expression with its own body, reached through
`visit_fn` with `FnKind::Closure`. -/
inductive HTree where
  | leaf : HTree
  | seq (a b : HTree) : HTree
  | closureNode (closureId : Nat) (body : HTree) : HTree
  | block (hirId : Nat) (userProvidedUnsafeBlock : Bool) (contents : HTree) : HTree
deriving DecidableEq

/-- The per-block usage record as `UnusedUnsafeVisitor::visit_block`
consults it: if the `UNUSED_UNSAFE` lint is allowed at the block, force
`Some(SomeDisallowedInUnsafeFn)`; otherwise look the block up in the
used-unsafe-blocks map. -/
def effectiveUsed (L : AuditEnv) (hirId : Nat) : Option UsedUnsafeBlockData :=
  match L.unusedLintAt hirId with
  | Level.Allow => some UsedUnsafeBlockData.SomeDisallowedInUnsafeFn
  | _ => lookupEntry L.blocks hirId

/-- The auditor's walk (`UnusedUnsafeVisitor`), as a function from the
current context to the ordered list of `(block id, finding)` pairs pushed
to `unused_unsafes`.  At a user-provided unsafe block, the source's
four-way match on `(self.context, used)`; the genuinely-used case walks
the contents under `UnsafeBlock(thisId)` and returns early (restoring the
prior context for everything after the block), the other cases push their
finding and then walk the contents under the unchanged context.  A closure
is entered by `visit_fn` calling `visit_body` on the same visitor, so its
body is walked under the current context. -/
def visitTree (L : AuditEnv) (c : Context) : HTree → List (Nat × UnusedUnsafe)
  | HTree.leaf => []
  | HTree.seq a b => visitTree L c a ++ visitTree L c b
  | HTree.closureNode _ body => visitTree L c body
  | HTree.block hirId uu contents =>
    if uu then
      match c, effectiveUsed L hirId with
      | _, none => (hirId, UnusedUnsafe.Unused) :: visitTree L c contents
      | Context.Safe, some _ => visitTree L (Context.UnsafeBlock hirId) contents
      | Context.UnsafeFn _, some UsedUnsafeBlockData.SomeDisallowedInUnsafeFn =>
          visitTree L (Context.UnsafeBlock hirId) contents
      | Context.UnsafeFn a, some (UsedUnsafeBlockData.AllAllowedInUnsafeFn lr) =>
          (hirId, UnusedUnsafe.InUnsafeFn a lr) :: visitTree L c contents
      | Context.UnsafeBlock a, some _ =>
          (hirId, UnusedUnsafe.InUnsafeBlock a) :: visitTree L c contents
    else visitTree L c contents

/-- `check_unused_unsafe`: the audit of a whole (non-closure) body, with
the context initialized to `UnsafeFn(bodyHirId)` when the enclosing
function is declared unsafe, else `Safe`. -/
def checkUnusedUnsafeBody (L : AuditEnv) (fnIsDeclaredUnsafe : Bool) (bodyHirId : Nat)
    (body : HTree) : List (Nat × UnusedUnsafe) :=
  visitTree L (if fnIsDeclaredUnsafe then Context.UnsafeFn bodyHirId else Context.Safe) body

/-- The context a fresh audit rooted at a closure's own declaration would
start from: `check_unused_unsafe` initializes from `fn_sig_by_hir_id`,
which is `None` for a closure, giving `Safe`. -/
def closureFreshContext : Context := Context.Safe

/-- Erase every closure boundary from a lexical tree, splicing each
closure's body in place of the closure node. -/
def inlineClosures : HTree → HTree
  | HTree.leaf => HTree.leaf
  | HTree.seq a b => HTree.seq (inlineClosures a) (inlineClosures b)
  | HTree.closureNode _ body => inlineClosures body
  | HTree.block hirId uu contents => HTree.block hirId uu (inlineClosures contents)

/-! ## Specification-side characterizations

These definitions restate the claims' wording (prefix up to the first
dereference, per-element classification with a crossed-a-dereference
annotation); the theorems below prove them equal to the functions embedded
from the source. -/

/-- The prefix of a projection-pair list up to (excluding) the first
`Deref`: the segment the layout-constrained-field scan is claimed to
cover. -/
def untilDeref : List (Ty × ProjElem) → List (Ty × ProjElem)
  | [] => []
  | p :: rest => if p.2 = ProjElem.Deref then [] else p :: untilDeref rest

/-- Claimed per-element classification of the layout-constrained-field
scan: a field projection whose owning ADT has a restricted scalar valid
range yields `MutationOfLayoutConstrainedField` for a mutating use, and
`BorrowOfLayoutConstrainedField` for a non-mutating use unless the place's
full type is free of interior mutability. -/
def layoutClassify (O : Oracle) (fullTy : Ty) (is_mut_use : Bool) (p : Ty × ProjElem) :
    Option UnsafetyViolationDetails :=
  match p.2 with
  | ProjElem.Field _ =>
    (match Ty.adtId? p.1 with
     | some did =>
       if O.layout_scalar_valid_range_restricted did then
         if is_mut_use then some UnsafetyViolationDetails.MutationOfLayoutConstrainedField
         else if !(O.is_freeze fullTy) then
           some UnsafetyViolationDetails.BorrowOfLayoutConstrainedField
         else none
       else none
     | none => none)
  | _ => none

/-- Annotate each element of a (tip-to-root) projection-pair list with
whether a dereference occurs strictly before it, starting from `b`. -/
def annotateCrossed (b : Bool) : List (Ty × ProjElem) → List ((Ty × ProjElem) × Bool)
  | [] => []
  | p :: rest => (p, b) :: annotateCrossed (b || decide (p.2 = ProjElem.Deref)) rest

/-- Whether assigning a value of type `t` drops the previous value: it
does unless the type is a `ManuallyDrop` wrapper or copyable modulo
regions. -/
def requiresDestruction (O : Oracle) (t : Ty) : Bool :=
  !((match Ty.adtId? t with
     | some did => O.is_manually_drop did
     | none => false) || O.is_copy_modulo_regions t)

/-- Claimed per-element classification of the union-field scan: at a union
field reached with no dereference crossed where the overall use is a
direct store/drop/asm-output, `AssignToDroppingUnionField` exactly when
the assigned place's type requires destruction; every other union-field
access yields `AccessToUnionField`. -/
def unionClassify (O : Oracle) (ctx : PlaceContext) (fullTy : Ty)
    (pb : (Ty × ProjElem) × Bool) : Option UnsafetyViolationDetails :=
  if pb.1.2 = ProjElem.Deref then none
  else if Ty.is_union pb.1.1 then
    (if !pb.2 && assignContext ctx then
      (if requiresDestruction O fullTy then
         some UnsafetyViolationDetails.AssignToDroppingUnionField
       else none)
    else some UnsafetyViolationDetails.AccessToUnionField)
  else none

/-! ## Concrete instances used by witnesses and counterexamples -/

/-- Oracle for the single-raw-pointer-dereference scenario: no restricted
ranges, no unions, nothing copyable, no statics. -/
def c1Oracle : Oracle :=
  ⟨fun _ => false, fun _ _ => Ty.scalar, fun _ => true, fun _ => false,
   fun _ => false, fun _ => false, fun _ => false⟩

/-- Local declarations for the scenario: every local is an ordinary
(non-internal) local of raw-pointer type. -/
def c1Decls : Nat → LocalDecl := fun _ => ⟨false, none, Ty.rawPtr Ty.scalar⟩

/-- Audit environment with one recorded block: block `7` was used, with
every absorbed violation at an `unsafe_op_in_unsafe_fn`-allowed anchor
(`AllAllowedInUnsafeFn 3`); the `UNUSED_UNSAFE` lint is nowhere allowed. -/
def c9Env : AuditEnv := ⟨fun _ => Level.Warn, [(7, UsedUnsafeBlockData.AllAllowedInUnsafeFn 3)]⟩

/-- Audit environment for the C3 witness: block `3` recorded as
`AllAllowedInUnsafeFn 1`, lint nowhere allowed. -/
def c3Env : AuditEnv := ⟨fun _ => Level.Warn, [(3, UsedUnsafeBlockData.AllAllowedInUnsafeFn 1)]⟩

/-- Oracle for the layout-constrained witness: ADT `4` has a restricted
scalar valid range; nothing is freeze. -/
def c5Oracle : Oracle :=
  ⟨fun did => did == 4, fun _ _ => Ty.scalar, fun _ => false, fun _ => false,
   fun _ => false, fun _ => false, fun _ => false⟩

/-- Local declarations for the layout-constrained witness: local `0` is a
struct of ADT id `4`. -/
def c5Decls : Nat → LocalDecl := fun _ => ⟨false, none, Ty.adt 4 false⟩

/-- Oracle for the static-ref witnesses: static `11` is mutable, static
`12` is foreign, neither `13`; no restricted ranges. -/
def c7Oracle : Oracle :=
  ⟨fun _ => false, fun _ _ => Ty.scalar, fun _ => true, fun _ => false,
   fun _ => false, fun did => did == 11, fun did => did == 12⟩

/-- Local declarations for the static-ref witnesses: local `0` is an
internal local of raw-pointer type recording a reference to static `11`;
local `1` records static `13` (neither mutable nor foreign). -/
def c7Decls : Nat → LocalDecl := fun l =>
  if l = 0 then ⟨true, some 11, Ty.rawPtr Ty.scalar⟩
  else ⟨true, some 13, Ty.rawPtr Ty.scalar⟩

/-! ## Lemmas about the used-unsafe-blocks map -/

theorem lookupEntry_setEntry (m : UsedMap) (h : Nat) (v : UsedUnsafeBlockData) :
    lookupEntry (setEntry m h v) h = (lookupEntry m h).map (fun _ => v) := by
  induction m with
  | nil => rfl
  | cons p rest ih =>
    obtain ⟨k, w⟩ := p
    by_cases hk : k = h
    · simp [setEntry, lookupEntry, hk]
    · simp [setEntry, lookupEntry, hk, ih]

theorem lookupEntry_append_single (m : UsedMap) (h : Nat) (v : UsedUnsafeBlockData)
    (hm : lookupEntry m h = none) :
    lookupEntry (m ++ [(h, v)]) h = some v := by
  induction m with
  | nil => simp [lookupEntry]
  | cons p rest ih =>
    obtain ⟨k, w⟩ := p
    by_cases hk : k = h
    · simp [lookupEntry, hk] at hm
    · simp only [List.cons_append, lookupEntry, hk, if_neg hk] at hm ⊢
      exact ih hm

theorem update_entry_disallowed (m : UsedMap) (h : Nat) :
    lookupEntry (update_entry m h UsedUnsafeBlockData.SomeDisallowedInUnsafeFn) h =
      some UsedUnsafeBlockData.SomeDisallowedInUnsafeFn := by
  unfold update_entry
  cases hm : lookupEntry m h with
  | none => simpa using lookupEntry_append_single m h _ hm
  | some w => simp [lookupEntry_setEntry, hm]

theorem update_entry_keeps_disallowed (m : UsedMap) (h : Nat) (u : UsedUnsafeBlockData)
    (hm : lookupEntry m h = some UsedUnsafeBlockData.SomeDisallowedInUnsafeFn) :
    lookupEntry (update_entry m h u) h =
      some UsedUnsafeBlockData.SomeDisallowedInUnsafeFn := by
  unfold update_entry
  rw [hm]
  by_cases hu : u = UsedUnsafeBlockData.SomeDisallowedInUnsafeFn
  · simp [hu, lookupEntry_setEntry, hm]
  · simp [hu, hm]

theorem foldl_update_keeps_disallowed (h : Nat) :
    ∀ (usages : List UsedUnsafeBlockData) (m : UsedMap),
      lookupEntry m h = some UsedUnsafeBlockData.SomeDisallowedInUnsafeFn →
      lookupEntry (usages.foldl (fun acc u => update_entry acc h u) m) h =
        some UsedUnsafeBlockData.SomeDisallowedInUnsafeFn := by
  intro usages
  induction usages with
  | nil => intro m hm; simpa using hm
  | cons u rest ih =>
    intro m hm
    simpa using ih _ (update_entry_keeps_disallowed m h u hm)

/-! ## Claim theorems: violation registration -/

/-- C2: merging usage records for one block through `update_entry` is
sticky: once any merged record is `SomeDisallowedInUnsafeFn` the stored
entry is `SomeDisallowedInUnsafeFn` (first conjunct, for any merge order
of any batch containing a disallowed record), and it never reverts to
`AllAllowedInUnsafeFn` afterwards (second conjunct: once the entry is
disallowed, any further merges leave it disallowed). -/
theorem c2_update_entry_sticky (m : UsedMap) (h : Nat) :
    (∀ usages : List UsedUnsafeBlockData,
       UsedUnsafeBlockData.SomeDisallowedInUnsafeFn ∈ usages →
       lookupEntry (usages.foldl (fun acc u => update_entry acc h u) m) h =
         some UsedUnsafeBlockData.SomeDisallowedInUnsafeFn) ∧
    (∀ usages : List UsedUnsafeBlockData,
       lookupEntry m h = some UsedUnsafeBlockData.SomeDisallowedInUnsafeFn →
       lookupEntry (usages.foldl (fun acc u => update_entry acc h u) m) h =
         some UsedUnsafeBlockData.SomeDisallowedInUnsafeFn) := by
  constructor
  · intro usages
    induction usages generalizing m with
    | nil => intro hmem; simp at hmem
    | cons u rest ih =>
      intro hmem
      rcases List.mem_cons.mp hmem with hu | hu
      · subst hu
        simpa using foldl_update_keeps_disallowed h rest _ (update_entry_disallowed m h)
      · simpa using ih (update_entry m h u) hu
  · intro usages hm
    exact foldl_update_keeps_disallowed h usages m hm

/-- Witness for C2 at a concrete input: merging
`[AllAllowed 1, SomeDisallowed, AllAllowed 2]` into an empty map at block
`7` yields a `SomeDisallowedInUnsafeFn` entry. -/
theorem c2_update_entry_sticky_witness :
    lookupEntry
      ([UsedUnsafeBlockData.AllAllowedInUnsafeFn 1,
        UsedUnsafeBlockData.SomeDisallowedInUnsafeFn,
        UsedUnsafeBlockData.AllAllowedInUnsafeFn 2].foldl
          (fun acc u => update_entry acc 7 u) []) 7 =
      some UsedUnsafeBlockData.SomeDisallowedInUnsafeFn :=
  (c2_update_entry_sticky [] 7).1 _ (by simp)

/-- C8: registering violations while the active scope's safety mode is
`BuiltinUnsafe` leaves the checker state entirely unchanged — no violation
is pushed and no used-block record is created or updated for the
registered violations (`require_unsafe` always passes an empty new-block
list, first and second conjuncts). -/
theorem c8_builtin_suppresses :
    (∀ (lintAt : Nat → Level) (vs : List UnsafetyViolation) (s : CheckerState),
       register_violations lintAt Safety.BuiltinUnsafe vs [] s = some s) ∧
    (∀ (lintAt : Nat → Level) (si lr : Nat) (d : UnsafetyViolationDetails) (s : CheckerState),
       requireUnsafe lintAt Safety.BuiltinUnsafe si lr UnsafetyViolationKind.General d s =
         some s) :=
  ⟨fun _ _ _ => rfl, fun _ _ _ _ _ => rfl⟩

theorem explicit_fold_violations (lintAt : Nat → Level) (b : Nat) :
    ∀ (vs : List UnsafetyViolation) (s : CheckerState),
      (vs.foldl (fun st v =>
        (⟨st.violations,
          update_entry st.used_unsafe_blocks b
            (match lintAt v.lint_root with
             | Level.Allow => UsedUnsafeBlockData.AllAllowedInUnsafeFn v.lint_root
             | _ => UsedUnsafeBlockData.SomeDisallowedInUnsafeFn)⟩ : CheckerState)) s).violations
        = s.violations := by
  intro vs
  induction vs with
  | nil => intro s; rfl
  | cons v rest ih => intro s; simpa using ih _

/-- C4: registering violations while the active scope's safety mode is
`ExplicitUnsafe(blockId)` never adds to the violation list (first
conjunct, for any batch), and for each violation the block's usage record
is merged as `AllAllowedInUnsafeFn(anchor)` when the
`unsafe_op_in_unsafe_fn` lint level at the violation's lint anchor is
`Allow`, and as `SomeDisallowedInUnsafeFn` otherwise (second conjunct). -/
theorem c4_explicit_unsafe_records_usage :
    (∀ (lintAt : Nat → Level) (b : Nat) (vs : List UnsafetyViolation) (s : CheckerState),
       ∃ s2, register_violations lintAt (Safety.ExplicitUnsafe b) vs [] s = some s2 ∧
         s2.violations = s.violations) ∧
    (∀ (lintAt : Nat → Level) (b : Nat) (v : UnsafetyViolation) (s : CheckerState),
       register_violations lintAt (Safety.ExplicitUnsafe b) [v] [] s =
         some ⟨s.violations,
               update_entry s.used_unsafe_blocks b
                 (if lintAt v.lint_root = Level.Allow then
                    UsedUnsafeBlockData.AllAllowedInUnsafeFn v.lint_root
                  else UsedUnsafeBlockData.SomeDisallowedInUnsafeFn)⟩) := by
  constructor
  · intro lintAt b vs s
    exact ⟨_, rfl, explicit_fold_violations lintAt b vs s⟩
  · intro lintAt b v s
    cases hl : lintAt v.lint_root <;> simp [register_violations, hl]

/-- C1: registering a `General` violation while the active scope's safety
mode is `FnUnsafe` (`unsafe fn` body without an explicit unsafe block)
rewrites its kind to `UnsafeFn` before the full-equality dedup check and
push (first conjunct); in particular, a single raw-pointer dereference
place use processed in such a scope yields exactly one violation, of kind
`UnsafeFn` with details `DerefOfRawPointer`, and no `General`-kind (hard
error) violation and no used-block record (second conjunct). -/
theorem c1_unsafe_fn_downgrade :
    (∀ (lintAt : Nat → Level) (v : UnsafetyViolation) (s : CheckerState),
       v.kind = UnsafetyViolationKind.General →
       register_violations lintAt Safety.FnUnsafe [v] [] s =
         some ⟨pushDedup s.violations (setKind v UnsafetyViolationKind.UnsafeFn),
               s.used_unsafe_blocks⟩) ∧
    (processPlaceUse c1Oracle c1Decls (fun _ => Level.Warn) Safety.FnUnsafe 0 1
       ⟨0, [ProjElem.Deref]⟩ (PlaceContext.NonMutatingUse NonMutatingUseContext.OtherUse)
       ⟨[], []⟩ =
     some ⟨[⟨0, 1, UnsafetyViolationKind.UnsafeFn, UnsafetyViolationDetails.DerefOfRawPointer⟩],
           []⟩) :=
  ⟨fun _ _ _ _ => rfl, by decide⟩

/-- Witness for C1 at a concrete input: a `General`/`DerefOfRawPointer`
violation registered in a `FnUnsafe` scope lands in the violation list
with kind `UnsafeFn`. -/
theorem c1_unsafe_fn_downgrade_witness :
    register_violations (fun _ => Level.Warn) Safety.FnUnsafe
      [⟨0, 1, UnsafetyViolationKind.General, UnsafetyViolationDetails.DerefOfRawPointer⟩] []
      ⟨[], []⟩ =
      some ⟨pushDedup []
              (setKind ⟨0, 1, UnsafetyViolationKind.General,
                          UnsafetyViolationDetails.DerefOfRawPointer⟩
                UnsafetyViolationKind.UnsafeFn), []⟩ :=
  c1_unsafe_fn_downgrade.1 (fun _ => Level.Warn) _ ⟨[], []⟩ rfl

/-! ## Claim theorems: the Unused-Unsafe Auditor -/

/-- C3: the outcome at an explicitly-written unsafe block follows the
source's case split on (context, usage record): if the `UNUSED_UNSAFE`
lint is allowed at the block, the record is forced to
`SomeDisallowedInUnsafeFn` before the split (1st conjunct); no record
gives finding `Unused` (2nd); context `Safe` with any record, or context
`UnsafeFn` with record `SomeDisallowedInUnsafeFn`, gives no finding and
walks the contents under `UnsafeBlock(thisId)` (3rd, 4th); context
`UnsafeFn(anchor)` with `AllAllowedInUnsafeFn(lintAnchor)` gives
`InUnsafeFn(anchor, lintAnchor)` (5th); context `UnsafeBlock(anchor)` with
any record gives `InUnsafeBlock(anchor)` (6th); and siblings after the
block are walked under the prior, restored context (7th). -/
theorem c3_visit_block_case_split (L : AuditEnv) (c : Context) (hirId : Nat)
    (contents rest : HTree) :
    (L.unusedLintAt hirId = Level.Allow →
       effectiveUsed L hirId = some UsedUnsafeBlockData.SomeDisallowedInUnsafeFn) ∧
    (effectiveUsed L hirId = none →
       visitTree L c (HTree.block hirId true contents) =
         (hirId, UnusedUnsafe.Unused) :: visitTree L c contents) ∧
    (∀ u, c = Context.Safe → effectiveUsed L hirId = some u →
       visitTree L c (HTree.block hirId true contents) =
         visitTree L (Context.UnsafeBlock hirId) contents) ∧
    (∀ a, c = Context.UnsafeFn a →
       effectiveUsed L hirId = some UsedUnsafeBlockData.SomeDisallowedInUnsafeFn →
       visitTree L c (HTree.block hirId true contents) =
         visitTree L (Context.UnsafeBlock hirId) contents) ∧
    (∀ a lr, c = Context.UnsafeFn a →
       effectiveUsed L hirId = some (UsedUnsafeBlockData.AllAllowedInUnsafeFn lr) →
       visitTree L c (HTree.block hirId true contents) =
         (hirId, UnusedUnsafe.InUnsafeFn a lr) :: visitTree L c contents) ∧
    (∀ a u, c = Context.UnsafeBlock a → effectiveUsed L hirId = some u →
       visitTree L c (HTree.block hirId true contents) =
         (hirId, UnusedUnsafe.InUnsafeBlock a) :: visitTree L c contents) ∧
    (visitTree L c (HTree.seq (HTree.block hirId true contents) rest) =
       visitTree L c (HTree.block hirId true contents) ++ visitTree L c rest) := by
  refine ⟨?_, ?_, ?_, ?_, ?_, ?_, rfl⟩
  · intro hA; simp [effectiveUsed, hA]
  · intro h; cases c <;> simp [visitTree, h]
  · intro u hc h; subst hc; simp [visitTree, h]
  · intro a hc h; subst hc; simp [visitTree, h]
  · intro a lr hc h; subst hc; simp [visitTree, h]
  · intro a u hc h; subst hc; cases u <;> simp [visitTree, h]

/-- Witness for C3 at a concrete input: in a `Safe` context, a recorded
block (no finding) is walked under `UnsafeBlock` of its own id. -/
theorem c3_visit_block_case_split_witness :
    visitTree c3Env Context.Safe (HTree.block 3 true HTree.leaf) =
      visitTree c3Env (Context.UnsafeBlock 3) HTree.leaf :=
  (c3_visit_block_case_split c3Env Context.Safe 3 HTree.leaf HTree.leaf).2.2.1
    (UsedUnsafeBlockData.AllAllowedInUnsafeFn 1) rfl rfl

theorem visitTree_inlineClosures (L : AuditEnv) :
    ∀ (t : HTree) (c : Context), visitTree L c t = visitTree L c (inlineClosures t) := by
  intro t
  induction t with
  | leaf => intro c; rfl
  | seq a b iha ihb => intro c; simp [visitTree, inlineClosures, iha, ihb]
  | closureNode cid body ih => intro c; simpa [visitTree, inlineClosures] using ih c
  | block hirId uu contents ih =>
    intro c
    cases uu with
    | false => simpa [visitTree, inlineClosures] using ih c
    | true =>
      cases h : effectiveUsed L hirId with
      | none => cases c <;> simp [visitTree, inlineClosures, h, ih]
      | some u => cases u <;> cases c <;> simp [visitTree, inlineClosures, h, ih]

/-- C9 (amended): the auditor descends into a closure's body with the
current context carried over unchanged — auditing a tree is the same as
auditing the tree with every closure boundary erased; a fresh context is
rooted only once per non-closure body (`checkUnusedUnsafeBody`), never at
a closure. -/
theorem c9_closure_context_carries_over (L : AuditEnv) (c : Context) :
    (∀ (cid : Nat) (body : HTree),
       visitTree L c (HTree.closureNode cid body) = visitTree L c body) ∧
    (∀ t : HTree, visitTree L c t = visitTree L c (inlineClosures t)) :=
  ⟨fun _ _ => rfl, fun t => visitTree_inlineClosures L t c⟩

/-- C9 counterexample: a closure reached while the context is
`UnsafeBlock 5`, whose body is an unsafe block `7` with a usage record,
is audited to the finding `InUnsafeBlock 5` — not to what a fresh audit
rooted at the closure's own declaration (context `Safe`, per
`check_unused_unsafe` on a body with no `fn_sig`) would produce, which is
no finding at all.  The enclosing context does carry over. -/
theorem c9_fresh_context_counterexample :
    visitTree c9Env (Context.UnsafeBlock 5)
        (HTree.closureNode 9 (HTree.block 7 true HTree.leaf)) ≠
      visitTree c9Env closureFreshContext (HTree.block 7 true HTree.leaf) := by decide

/-! ## Lemmas about the place-use scans -/

theorem layoutScan_eq_untilDeref (O : Oracle) (fullTy : Ty) (m : Bool) :
    ∀ pairs : List (Ty × ProjElem),
      layoutScan O fullTy m pairs =
        (untilDeref pairs).filterMap (layoutClassify O fullTy m) := by
  intro pairs
  induction pairs with
  | nil => rfl
  | cons p rest ih =>
    obtain ⟨baseTy, e⟩ := p
    cases e with
    | Deref => simp [layoutScan, untilDeref]
    | Field i =>
      cases hadt : Ty.adtId? baseTy with
      | none => simp [layoutScan, untilDeref, layoutClassify, hadt, ih]
      | some did =>
        by_cases hr : O.layout_scalar_valid_range_restricted did = true
        · cases m with
          | false =>
            by_cases hf : O.is_freeze fullTy = true <;>
              simp [layoutScan, untilDeref, layoutClassify, hadt, hr, hf, ih]
          | true => simp [layoutScan, untilDeref, layoutClassify, hadt, hr, ih]
        · simp [layoutScan, untilDeref, layoutClassify, hadt, hr, ih]
    | Other => simp [layoutScan, untilDeref, layoutClassify, ih]

theorem unionScan_eq_annotate (O : Oracle) (ctx : PlaceContext) (fullTy : Ty) :
    ∀ (pairs : List (Ty × ProjElem)) (b : Bool),
      unionScan O ctx fullTy b pairs =
        (annotateCrossed b pairs).filterMap (unionClassify O ctx fullTy) := by
  intro pairs
  induction pairs with
  | nil => intro b; rfl
  | cons p rest ih =>
    intro b
    obtain ⟨baseTy, e⟩ := p
    by_cases hd : e = ProjElem.Deref
    · subst hd
      simp [unionScan, annotateCrossed, unionClassify, ih]
    · by_cases hu : Ty.is_union baseTy = true
      · by_cases ha : (!b && assignContext ctx) = true
        · cases hAdt : Ty.adtId? fullTy with
          | none =>
            cases hcp : O.is_copy_modulo_regions fullTy <;>
              simp [unionScan, annotateCrossed, unionClassify, requiresDestruction,
                hd, hu, ha, hAdt, hcp, ih]
          | some did =>
            cases hmd : O.is_manually_drop did <;>
              cases hcp : O.is_copy_modulo_regions fullTy <;>
                simp [unionScan, annotateCrossed, unionClassify, requiresDestruction,
                  hd, hu, ha, hAdt, hmd, hcp, ih]
        · simp [unionScan, annotateCrossed, unionClassify, hd, hu, ha, ih]
      · simp [unionScan, annotateCrossed, unionClassify, hd, hu, ih]

theorem layoutClassify_some (O : Oracle) (fullTy : Ty) (m : Bool) (p : Ty × ProjElem)
    (d : UnsafetyViolationDetails) (h : layoutClassify O fullTy m p = some d) :
    d = UnsafetyViolationDetails.MutationOfLayoutConstrainedField ∨
      d = UnsafetyViolationDetails.BorrowOfLayoutConstrainedField := by
  obtain ⟨t, e⟩ := p
  cases e with
  | Deref => simp [layoutClassify] at h
  | Other => simp [layoutClassify] at h
  | Field i =>
    cases hadt : Ty.adtId? t with
    | none => simp [layoutClassify, hadt] at h
    | some did =>
      by_cases hr : O.layout_scalar_valid_range_restricted did = true
      · cases m with
        | false =>
          by_cases hf : O.is_freeze fullTy = true
          · simp [layoutClassify, hadt, hr, hf] at h
          · simp [layoutClassify, hadt, hr, hf] at h
            subst h
            simp
        | true =>
          simp [layoutClassify, hadt, hr] at h
          subst h
          simp
      · simp [layoutClassify, hadt, hr] at h

theorem unionClassify_some (O : Oracle) (ctx : PlaceContext) (fullTy : Ty)
    (pb : (Ty × ProjElem) × Bool) (d : UnsafetyViolationDetails)
    (h : unionClassify O ctx fullTy pb = some d) :
    d = UnsafetyViolationDetails.AssignToDroppingUnionField ∨
      d = UnsafetyViolationDetails.AccessToUnionField := by
  unfold unionClassify at h
  split_ifs at h <;> simp_all

theorem mem_layoutScan (O : Oracle) (fullTy : Ty) (m : Bool)
    (pairs : List (Ty × ProjElem)) (d : UnsafetyViolationDetails)
    (hd : d ∈ layoutScan O fullTy m pairs) :
    d = UnsafetyViolationDetails.MutationOfLayoutConstrainedField ∨
      d = UnsafetyViolationDetails.BorrowOfLayoutConstrainedField := by
  rw [layoutScan_eq_untilDeref] at hd
  obtain ⟨q, _, hq⟩ := List.mem_filterMap.mp hd
  exact layoutClassify_some O fullTy m q d hq

theorem mem_layoutGate (O : Oracle) (decls : Nat → LocalDecl) (p : Place)
    (ctx : PlaceContext) (d : UnsafetyViolationDetails)
    (hd : d ∈ layoutGate O decls p ctx) :
    d = UnsafetyViolationDetails.MutationOfLayoutConstrainedField ∨
      d = UnsafetyViolationDetails.BorrowOfLayoutConstrainedField := by
  unfold layoutGate check_mut_borrowing_layout_constrained_field at hd
  split at hd
  · exact mem_layoutScan O _ _ _ d hd
  · simp at hd

theorem mem_rawPtrDerefCheck :
    ∀ (pairs : List (Ty × ProjElem)) (d : UnsafetyViolationDetails),
      d ∈ rawPtrDerefCheck pairs → d = UnsafetyViolationDetails.DerefOfRawPointer := by
  intro pairs
  induction pairs with
  | nil => intro d hd; simp [rawPtrDerefCheck] at hd
  | cons p rest ih =>
    intro d hd
    obtain ⟨t, e⟩ := p
    by_cases hc : e = ProjElem.Deref ∧ Ty.is_unsafe_ptr t = true
    · rw [rawPtrDerefCheck, if_pos hc] at hd
      rcases List.mem_cons.mp hd with rfl | hd'
      · rfl
      · exact ih d hd'
    · rw [rawPtrDerefCheck, if_neg hc] at hd
      exact ih d hd

theorem rawPtrDerefCheck_mem :
    ∀ (pairs : List (Ty × ProjElem)) (q : Ty × ProjElem),
      q ∈ pairs → q.2 = ProjElem.Deref → Ty.is_unsafe_ptr q.1 = true →
      UnsafetyViolationDetails.DerefOfRawPointer ∈ rawPtrDerefCheck pairs := by
  intro pairs
  induction pairs with
  | nil => intro q hq; simp at hq
  | cons p rest ih =>
    intro q hq h1 h2
    obtain ⟨t, e⟩ := p
    rcases List.mem_cons.mp hq with rfl | hq'
    · simp only at h1 h2
      rw [rawPtrDerefCheck, if_pos ⟨h1, h2⟩]
      exact List.mem_cons_self _ _
    · by_cases hc : e = ProjElem.Deref ∧ Ty.is_unsafe_ptr t = true
      · rw [rawPtrDerefCheck, if_pos hc]
        exact List.mem_cons_of_mem _ (ih q hq' h1 h2)
      · rw [rawPtrDerefCheck, if_neg hc]
        exact ih q hq' h1 h2

theorem mem_unionCheck (O : Oracle) (decls : Nat → LocalDecl) (p : Place)
    (ctx : PlaceContext) (d : UnsafetyViolationDetails)
    (hd : d ∈ unionCheck O decls p ctx) :
    d = UnsafetyViolationDetails.AssignToDroppingUnionField ∨
      d = UnsafetyViolationDetails.AccessToUnionField := by
  unfold unionCheck at hd
  rw [unionScan_eq_annotate] at hd
  obtain ⟨q, _, hq⟩ := List.mem_filterMap.mp hd
  exact unionClassify_some O ctx _ q d hq

/-! ## Claim theorems: place-use classification -/

/-- C5: for a place use that is a mutating use or a borrow, the
layout-constrained-field check is exactly a scan of the projection pairs
tip-to-root cut off at the first dereference (`untilDeref` of the reversed
pairs), classifying each field projection whose owning ADT has a
restricted scalar valid range as `MutationOfLayoutConstrainedField` for a
mutating use and as `BorrowOfLayoutConstrainedField` for a non-mutating
one unless the place's full type is freeze, in which case that field
yields nothing (`layoutClassify`); the rest of `visit_place` follows. -/
theorem c5_layout_constrained_scan (O : Oracle) (decls : Nat → LocalDecl) (p : Place)
    (ctx : PlaceContext)
    (h : PlaceContext.is_mutating_use ctx = true ∨ PlaceContext.is_borrow ctx = true) :
    visit_place O decls p ctx =
      (untilDeref (placePairs O decls p).reverse).filterMap
        (layoutClassify O (placeFullTy O decls p) (PlaceContext.is_mutating_use ctx))
      ++ staticOrGeneric O decls p ctx := by
  have hg : layoutGate O decls p ctx =
      check_mut_borrowing_layout_constrained_field O decls p
        (PlaceContext.is_mutating_use ctx) := by
    unfold layoutGate
    rcases h with h | h <;> simp [h]
  rw [visit_place, hg, check_mut_borrowing_layout_constrained_field,
    layoutScan_eq_untilDeref]

/-- Witness for C5 at a concrete input: a store to a field of a
restricted-range struct. -/
theorem c5_layout_constrained_scan_witness :
    visit_place c5Oracle c5Decls ⟨0, [ProjElem.Field 0]⟩
        (PlaceContext.MutatingUse MutatingUseContext.Store) =
      (untilDeref (placePairs c5Oracle c5Decls ⟨0, [ProjElem.Field 0]⟩).reverse).filterMap
        (layoutClassify c5Oracle (placeFullTy c5Oracle c5Decls ⟨0, [ProjElem.Field 0]⟩)
          (PlaceContext.is_mutating_use (PlaceContext.MutatingUse MutatingUseContext.Store)))
      ++ staticOrGeneric c5Oracle c5Decls ⟨0, [ProjElem.Field 0]⟩
          (PlaceContext.MutatingUse MutatingUseContext.Store) :=
  c5_layout_constrained_scan c5Oracle c5Decls _ _ (Or.inl rfl)

/-- C6: the union-field check equals the claimed per-element
classification: scanning tip-to-root with a crossed-a-dereference
annotation, a union field reached with no dereference crossed under a
direct store/drop/asm-output use yields `AssignToDroppingUnionField`
exactly when the assigned place's type requires destruction (neither a
`ManuallyDrop` wrapper nor copyable modulo regions) and nothing otherwise,
and every other union-field access yields `AccessToUnionField`. -/
theorem c6_union_field_classification (O : Oracle) (decls : Nat → LocalDecl) (p : Place)
    (ctx : PlaceContext) :
    unionCheck O decls p ctx =
      (annotateCrossed false (placePairs O decls p).reverse).filterMap
        (unionClassify O ctx (placeFullTy O decls p)) := by
  unfold unionCheck
  exact unionScan_eq_annotate O ctx _ _ false

/-- C7: for a place whose root local is internal, whose first projection
is a dereference, and whose declaration records a static, `visit_place`
classifies a mutable static as `UseOfMutableStatic` and (otherwise) a
foreign static as `UseOfExternStatic`, and in both cases returns
immediately after, skipping the raw-pointer and union-field checks. -/
theorem c7_static_special_case (O : Oracle) (decls : Nat → LocalDecl) (p : Place)
    (ctx : PlaceContext) (did : Nat)
    (h1 : (decls p.localVar).internal = true)
    (h2 : p.projection.head? = some ProjElem.Deref)
    (h3 : (decls p.localVar).static_ref = some did) :
    (O.is_mutable_static did = true →
       visit_place O decls p ctx =
         layoutGate O decls p ctx ++ [UnsafetyViolationDetails.UseOfMutableStatic]) ∧
    (O.is_mutable_static did = false → O.is_foreign_item did = true →
       visit_place O decls p ctx =
         layoutGate O decls p ctx ++ [UnsafetyViolationDetails.UseOfExternStatic]) := by
  constructor
  · intro hm
    simp [visit_place, staticOrGeneric, h1, h2, h3, hm]
  · intro hm hf
    simp [visit_place, staticOrGeneric, h1, h2, h3, hm, hf]

/-- Witness for C7 at a concrete input: a dereference of the internal
local holding a reference to mutable static `11`. -/
theorem c7_static_special_case_witness :
    visit_place c7Oracle c7Decls ⟨0, [ProjElem.Deref]⟩
        (PlaceContext.NonMutatingUse NonMutatingUseContext.OtherUse) =
      layoutGate c7Oracle c7Decls ⟨0, [ProjElem.Deref]⟩
          (PlaceContext.NonMutatingUse NonMutatingUseContext.OtherUse)
        ++ [UnsafetyViolationDetails.UseOfMutableStatic] :=
  (c7_static_special_case c7Oracle c7Decls ⟨0, [ProjElem.Deref]⟩
    (PlaceContext.NonMutatingUse NonMutatingUseContext.OtherUse) 11 rfl rfl rfl).1 rfl

/-- C10: for a place with an internal root local, first-projection
dereference and a recorded static that is neither mutable nor foreign, no
static-specific violation is produced and the generic checks still run:
`visit_place` is the layout gate followed by the raw-pointer check and the
union-field check (1st conjunct), its output never contains
`UseOfMutableStatic` or `UseOfExternStatic` (2nd, 3rd), and every raw
pointer dereference in the chain still yields `DerefOfRawPointer` (4th). -/
theorem c10_static_fallthrough (O : Oracle) (decls : Nat → LocalDecl) (p : Place)
    (ctx : PlaceContext) (did : Nat)
    (h1 : (decls p.localVar).internal = true)
    (h2 : p.projection.head? = some ProjElem.Deref)
    (h3 : (decls p.localVar).static_ref = some did)
    (h4 : O.is_mutable_static did = false)
    (h5 : O.is_foreign_item did = false) :
    visit_place O decls p ctx =
      layoutGate O decls p ctx ++
        (rawPtrDerefCheck (placePairs O decls p) ++ unionCheck O decls p ctx) ∧
    UnsafetyViolationDetails.UseOfMutableStatic ∉ visit_place O decls p ctx ∧
    UnsafetyViolationDetails.UseOfExternStatic ∉ visit_place O decls p ctx ∧
    (∀ q ∈ placePairs O decls p, q.2 = ProjElem.Deref → Ty.is_unsafe_ptr q.1 = true →
       UnsafetyViolationDetails.DerefOfRawPointer ∈ visit_place O decls p ctx) := by
  have hv : visit_place O decls p ctx =
      layoutGate O decls p ctx ++
        (rawPtrDerefCheck (placePairs O decls p) ++ unionCheck O decls p ctx) := by
    simp [visit_place, staticOrGeneric, genericChecks, h1, h2, h3, h4, h5]
  refine ⟨hv, ?_, ?_, ?_⟩
  · intro hmem
    rw [hv] at hmem
    rcases List.mem_append.mp hmem with hmem | hmem
    · rcases mem_layoutGate O decls p ctx _ hmem with h | h <;> simp at h
    · rcases List.mem_append.mp hmem with hmem | hmem
      · have := mem_rawPtrDerefCheck _ _ hmem
        simp at this
      · rcases mem_unionCheck O decls p ctx _ hmem with h | h <;> simp at h
  · intro hmem
    rw [hv] at hmem
    rcases List.mem_append.mp hmem with hmem | hmem
    · rcases mem_layoutGate O decls p ctx _ hmem with h | h <;> simp at h
    · rcases List.mem_append.mp hmem with hmem | hmem
      · have := mem_rawPtrDerefCheck _ _ hmem
        simp at this
      · rcases mem_unionCheck O decls p ctx _ hmem with h | h <;> simp at h
  · intro q hq hq2 hq3
    rw [hv]
    exact List.mem_append.mpr
      (Or.inr (List.mem_append.mpr (Or.inl (rawPtrDerefCheck_mem _ q hq hq2 hq3))))

/-- Witness for C10 at a concrete input: a dereference of the internal
local holding a reference to static `13`, which is neither mutable nor
foreign, falls through to the generic checks. -/
theorem c10_static_fallthrough_witness :
    visit_place c7Oracle c7Decls ⟨1, [ProjElem.Deref]⟩
        (PlaceContext.NonMutatingUse NonMutatingUseContext.OtherUse) =
      layoutGate c7Oracle c7Decls ⟨1, [ProjElem.Deref]⟩
          (PlaceContext.NonMutatingUse NonMutatingUseContext.OtherUse) ++
        (rawPtrDerefCheck (placePairs c7Oracle c7Decls ⟨1, [ProjElem.Deref]⟩) ++
          unionCheck c7Oracle c7Decls ⟨1, [ProjElem.Deref]⟩
            (PlaceContext.NonMutatingUse NonMutatingUseContext.OtherUse)) :=
  (c10_static_fallthrough c7Oracle c7Decls ⟨1, [ProjElem.Deref]⟩
    (PlaceContext.NonMutatingUse NonMutatingUseContext.OtherUse) 13 rfl rfl rfl rfl rfl).1

end CheckUnsafety
